import Mathlib

/-!
Verification of the firewalker expression binder (`il` package, file
`bind.go`-style source shown in `src/unnamed/part_000`) and the generic
bound-tree visitor/rewriter (`src/il/boundTree_visitor.go`).

The binder and visitor are embedded shallowly.  Fallible Go functions
returning `(T, error)` are embedded as functions into `Res T`; Go runtime
panics (out-of-range slice indexing, `contract.Failf`) are a distinct
`crash` outcome.  The definitions of the type system (`Type`, `Schemas`)
and of the graph nodes (`ResourceNode`, `VariableNode`, the `builder`
tables) belong to this repository but are not among the given source
files; they are modelled from the spec, as noted on each definition.
-/

/-- Outcome of a fallible Go computation: a value, a returned `error`, or a
runtime panic (`crash`).  `nofuel` is a modelling artifact used only by the
fuel-indexed visitor below: it marks traversals that exceed the fuel bound
and never occurs for sufficient fuel. -/
inductive Res (α : Type) where
  | ok : α → Res α
  | err : String → Res α
  | crash : String → Res α
  | nofuel : Res α

/-- Modelled from the spec: the primitive variants of the type lattice
(`unknown, bool, number, string, map`); `il.Type` itself is repository code
missing from the given sources. -/
inductive ElemType where
  | unknown
  | bool
  | number
  | string
  | map
deriving DecidableEq, Repr

/-- Modelled from the spec: a value type.  Per the spec, `ListOf` and
`OutputOf` are idempotent-safe wrappers with structural equality, so a type
is an element type together with the two wrapper flags; under this
representation the wrappers are idempotent and commute, which makes the
spec's two renderings (`OutputOf(ListOf(T))` for a splat produced by
applying `OutputOf` first and `ListOf` second) consistent. -/
structure Ty where
  elem : ElemType
  isList : Bool
  isOutput : Bool
deriving DecidableEq, Repr

def TypeUnknown : Ty := ⟨.unknown, false, false⟩

def TypeBool : Ty := ⟨.bool, false, false⟩

def TypeNumber : Ty := ⟨.number, false, false⟩

def TypeString : Ty := ⟨.string, false, false⟩

def TypeMap : Ty := ⟨.map, false, false⟩

/-- Modelled from the spec: `Type.IsList`. -/
def Ty.IsList (t : Ty) : Bool := t.isList

/-- Modelled from the spec: `Type.ListOf` wraps a type as a list type. -/
def Ty.ListOf (t : Ty) : Ty := { t with isList := true }

/-- Modelled from the spec: `Type.OutputOf` wraps a type as an output type. -/
def Ty.OutputOf (t : Ty) : Ty := { t with isOutput := true }

/-- Modelled from the spec: `Type.ElementType` is the element type of a
list type and is defined defensively (Unknown) on a non-list type. -/
def Ty.ElementType (t : Ty) : Ty :=
  if t.isList then ⟨t.elem, false, false⟩ else TypeUnknown

/-- Modelled from the spec: `il.Schemas` maps property-path elements to
nested schemas, and exposes the declared type of the position it denotes.
The Go `Schemas` struct is repository code missing from the given
sources. -/
inductive Schemas where
  | mk (type : Ty) (props : List (String × Schemas))

/-- The zero value `Schemas` (written `Schemas{}` in the source): a schema
for `Unknown` with no declared properties. -/
def Schemas.empty : Schemas := .mk TypeUnknown []

/-- Modelled from the spec: `Schemas.Type`, the declared type at this
schema position. -/
def Schemas.type : Schemas → Ty
  | .mk t _ => t

/-- Modelled from the spec: `Schemas.PropertySchemas` resolves one
property-path element by name; an absent name yields a schema for
`Unknown`. -/
def Schemas.PropertySchemas : Schemas → String → Schemas
  | .mk _ props, name =>
    match props.lookup name with
    | some s => s
    | none => Schemas.empty

/-- Modelled from the spec: a resource graph node carries its exposed
schema; whether its provider can be resolved is delegated to an external
collaborator and recorded here as a flag consulted by `ensureProvider`. -/
structure ResourceNode where
  schemas : Schemas
  providerOk : Bool

/-- Modelled from the spec: a variable graph node carries an optional
default value; the binder consumes only the default's `Type()`, which is
what this model stores. -/
structure VariableNode where
  defaultValue : Option Ty

/-- Modelled from the spec: the builder's read-only lookup tables (Go maps
embedded as association lists).  Locals and modules are consulted only for
existence, and bound nodes reference graph nodes by key (spec §9), so the
local/module tables are carried as lists of known names. -/
structure Builder where
  locals : List String
  modules : List String
  resources : List (String × ResourceNode)
  vars : List (String × VariableNode)

/-- Modelled from the spec: `il.propertyBinder` — the builder tables plus
whether a count index is in lexical scope.  (The Go builder field
`variables` is carried here as `vars`: `variables` is not a usable
identifier in Lean.) -/
structure PropertyBinder where
  builder : Builder
  hasCountIndex : Bool

/-- Modelled from the spec: `ensureProvider` delegates provider resolution
to an external collaborator; its failure propagates out of the bind. -/
def Builder.ensureProvider (r : ResourceNode) : Res Unit :=
  if r.providerOk then .ok () else .err "provider error"

/-- The sub-kind of a Terraform `count.` variable
(`config.CountVariable.Type`): the supported `index` sub-kind or any other
(unsupported) sub-kind. -/
inductive CountValueKind where
  | index
  | invalid
deriving DecidableEq, Repr

/-- The result of `config.NewInterpolatedVariable` (an external Terraform
collaborator): the parsed interpolated-variable reference.  A
`ResourceVariable` is carried as its fully-qualified resource id, accessed
field, and the multi/index metadata; `Index = -1` encodes a multi
reference with no explicit index (a splat). -/
inductive TFVar where
  | count (kind : CountValueKind) (fullKey : String)
  | localVar (name : String)
  | moduleVar (name : String)
  | path
  | resource (resourceId : String) (field : String) (multi : Bool) (index : Int)
  | selfVar
  | simple
  | terraform
  | user (elem : String) (name : String)
deriving DecidableEq, Repr

/-- The literal kinds of `hil/ast.LiteralNode.Typex` that the binder
inspects; `other` stands for every remaining HIL type tag. -/
inductive LitKind where
  | bool
  | int
  | float
  | string
  | other
deriving DecidableEq, Repr

/-- The untyped HIL expression AST (`hil/ast.Node`, an external input).  A
literal's value is carried as an opaque payload.  A variable-access node
carries the result of the external `config.NewInterpolatedVariable` parse
of its name (the parse itself is outside this repository). -/
inductive HilNode where
  | arithmetic (exprs : List HilNode)
  | call (func : String) (args : List HilNode)
  | conditional (condExpr trueExpr falseExpr : HilNode)
  | index (target key : HilNode)
  | literal (typex : LitKind) (value : String)
  | output (exprs : List HilNode)
  | variableAccess (parsed : Res TFVar)

/-- A non-owning reference from a bound node back to a graph node, carried
as the graph-builder table key (spec §9 models `ILNode` back-references as
keys into externally owned tables). -/
inductive ILRef where
  | resourceRef (id : String)
  | moduleRef (name : String)
  | localRef (name : String)
  | varRef (name : String)
deriving DecidableEq, Repr

/-- The bound IR tree (`il.BoundNode`).  The `HILNode` provenance
back-references of the Go structs are omitted (they are never consulted by
the binder or visitor).  The variants `listProperty` and `mapProperty` are
the two container-only variants that are not `BoundExpr`s; a map property's
elements are embedded as an association list. -/
inductive BoundNode where
  | arithmetic (exprs : List BoundNode)
  | call (func : String) (exprType : Ty) (args : List BoundNode)
  | conditional (exprType : Ty) (condExpr trueExpr falseExpr : BoundNode)
  | index (exprType : Ty) (targetExpr keyExpr : BoundNode)
  | literal (exprType : Ty) (value : String)
  | output (exprs : List BoundNode)
  | variableAccess (elements : List String) (schemas : Schemas) (exprType : Ty)
      (tfVar : TFVar) (ilNode : Option ILRef)
  | listProperty (elements : List BoundNode)
  | mapProperty (elements : List (String × BoundNode))

/-- Whether a bound node is a `BoundExpr` in the Go sources: every variant
except the two container-only property variants implements `BoundExpr`. -/
def BoundNode.isExpr : BoundNode → Bool
  | .listProperty _ => false
  | .mapProperty _ => false
  | _ => true

/-- `Type()` of a bound expression.  The per-variant implementations are
repository code missing from the given sources; modelled from the spec:
expression variants report their stored type, Arithmetic's result type is
not computed by the binder (spec: defaults to Unknown), an Output's type
is String (concatenation semantics), and the two container-only variants
are not `BoundExpr`s (defensively Unknown here, never consulted). -/
def BoundNode.type : BoundNode → Ty
  | .arithmetic _ => TypeUnknown
  | .call _ t _ => t
  | .conditional t _ _ _ => t
  | .index t _ _ => t
  | .literal t _ => t
  | .output _ => TypeString
  | .variableAccess _ _ t _ _ => t
  | .listProperty _ => TypeUnknown
  | .mapProperty _ => TypeUnknown

/-- Go's `strings.Split(s, ".")`: split on every dot; the empty string
splits to a singleton list holding the empty string. -/
def splitFieldAux : List Char → List Char → List String
  | [], acc => [String.mk acc.reverse]
  | c :: cs, acc =>
    if c = '.' then String.mk acc.reverse :: splitFieldAux cs []
    else splitFieldAux cs (c :: acc)

/-- `strings.Split(v.Field, ".")` from `bindVariableAccess`. -/
def splitField (s : String) : List String := splitFieldAux s.toList []

/-- `bindLiteral` binds an HIL literal expression.  The literal must be of
type bool, int, float, or string. -/
def bindLiteral (typex : LitKind) (value : String) : Res BoundNode :=
  match typex with
  | .bool => .ok (.literal TypeBool value)
  | .int => .ok (.literal TypeNumber value)
  | .float => .ok (.literal TypeNumber value)
  | .string => .ok (.literal TypeString value)
  | .other => .err "Unexpected literal type"

/-- `bindVariableAccess` binds an HIL variable access expression.  The
first argument past the binder is the (externally computed) result of
`config.NewInterpolatedVariable`, whose failure propagates. -/
def bindVariableAccess (b : PropertyBinder) (parsed : Res TFVar) : Res BoundNode :=
  match parsed with
  | .err e => .err e
  | .crash m => .crash m
  | .nofuel => .nofuel
  | .ok tfVar =>
    match tfVar with
    | .count kind fullKey =>
      if kind ≠ .index then .err ("unsupported count variable " ++ fullKey)
      else if !b.hasCountIndex then .err "no count index in scope"
      else .ok (.variableAccess [] Schemas.empty TypeNumber (.count kind fullKey) none)
    | .localVar name =>
      if b.builder.locals.contains name then
        .ok (.variableAccess [] Schemas.empty TypeUnknown.OutputOf (.localVar name)
          (some (.localRef name)))
      else .err ("unknown local " ++ name)
    | .moduleVar name =>
      if b.builder.modules.contains name then
        .ok (.variableAccess [] Schemas.empty TypeUnknown.OutputOf (.moduleVar name)
          (some (.moduleRef name)))
      else .err ("unknown module " ++ name)
    | .path => .err "NYI: path variables"
    | .resource rid field multi index =>
      match b.builder.resources.lookup rid with
      | none => .err ("unknown resource " ++ rid)
      | some r =>
        match Builder.ensureProvider r with
        | .err e => .err e
        | .crash m => .crash m
        | .nofuel => .nofuel
        | .ok _ =>
          let elements := splitField field
          let elemSch := elements.foldl Schemas.PropertySchemas r.schemas
          let exprType := elemSch.type.OutputOf
          let exprType := if multi && index == -1 then exprType.ListOf else exprType
          .ok (.variableAccess elements r.schemas exprType
            (.resource rid field multi index) (some (.resourceRef rid)))
    | .selfVar => .err "NYI: self variables"
    | .simple => .err "NYI: simple variables"
    | .terraform => .err "NYI: terraform variables"
    | .user elem name =>
      if elem ≠ "" then .err "NYI: user variable elements"
      else
        match b.builder.vars.lookup name with
        | none => .err ("unknown variable " ++ name)
        | some vn =>
          let exprType :=
            match vn.defaultValue with
            | some dt => if dt ≠ TypeString then TypeUnknown else TypeString
            | none => TypeString
          .ok (.variableAccess [] Schemas.empty exprType (.user elem name)
            (some (.varRef name)))

mutual

/-- `bindArithmetic` binds an HIL arithmetic expression. -/
def bindArithmetic (b : PropertyBinder) (hilExprs : List HilNode) : Res BoundNode :=
  match bindExprs b hilExprs with
  | .err e => .err e
  | .crash m => .crash m
  | .nofuel => .nofuel
  | .ok exprs => .ok (.arithmetic exprs)
termination_by (1 + sizeOf hilExprs, 0)

/-- `bindCall` binds an HIL call expression: bind the arguments, then use
the called function's name to determine the call's type.  In the source,
`args[0]` in the `element` case is evaluated before any length check; on an
empty argument list that Go slice access is a runtime out-of-range panic,
modelled as `crash`. -/
def bindCall (b : PropertyBinder) (func : String) (hilArgs : List HilNode) : Res BoundNode :=
  match bindExprs b hilArgs with
  | .err e => .err e
  | .crash m => .crash m
  | .nofuel => .nofuel
  | .ok args =>
    match func with
    | "base64decode" => .ok (.call func TypeString args)
    | "base64encode" => .ok (.call func TypeString args)
    | "chomp" => .ok (.call func TypeString args)
    | "element" =>
      match args with
      | [] => .crash "runtime error: index out of range [0] with length 0"
      | a0 :: _ =>
        if (BoundNode.type a0).IsList then .ok (.call func (BoundNode.type a0).ElementType args)
        else .ok (.call func TypeUnknown args)
    | "file" => .ok (.call func TypeString args)
    | "format" => .ok (.call func TypeString args)
    | "list" => .ok (.call func TypeUnknown.ListOf args)
    | "lookup" => .ok (.call func TypeUnknown args)
    | "map" =>
      if args.length % 2 ≠ 0 then .err "the numbner of arguments to \"map\" must be even"
      else .ok (.call func TypeMap args)
    | "split" => .ok (.call func TypeString.ListOf args)
    | _ => .err ("NYI: call to " ++ func)
termination_by (1 + sizeOf func + sizeOf hilArgs, 0)

/-- `bindConditional` binds an HIL conditional expression.  If the types of
both branches match, the expression has that type; otherwise Unknown. -/
def bindConditional (b : PropertyBinder) (hilCond hilTrue hilFalse : HilNode) : Res BoundNode :=
  match bindExpr b hilCond with
  | .err e => .err e
  | .crash m => .crash m
  | .nofuel => .nofuel
  | .ok condExpr =>
    match bindExpr b hilTrue with
    | .err e => .err e
    | .crash m => .crash m
    | .nofuel => .nofuel
    | .ok trueExpr =>
      match bindExpr b hilFalse with
      | .err e => .err e
      | .crash m => .crash m
      | .nofuel => .nofuel
      | .ok falseExpr =>
        let exprType := trueExpr.type
        let exprType := if exprType ≠ falseExpr.type then TypeUnknown else exprType
        .ok (.conditional exprType condExpr trueExpr falseExpr)
termination_by (1 + sizeOf hilCond + sizeOf hilTrue + sizeOf hilFalse, 0)

/-- `bindIndex` binds an HIL index expression: the type is the target's
element type if the target is a list, otherwise Unknown. -/
def bindIndex (b : PropertyBinder) (hilTarget hilKey : HilNode) : Res BoundNode :=
  match bindExpr b hilTarget with
  | .err e => .err e
  | .crash m => .crash m
  | .nofuel => .nofuel
  | .ok boundTarget =>
    match bindExpr b hilKey with
    | .err e => .err e
    | .crash m => .crash m
    | .nofuel => .nofuel
    | .ok boundKey =>
      let targetType := boundTarget.type
      let exprType := if targetType.IsList then targetType.ElementType else TypeUnknown
      .ok (.index exprType boundTarget boundKey)
termination_by (1 + sizeOf hilTarget + sizeOf hilKey, 0)

/-- `bindOutput` binds an HIL output expression, projecting a
single-element output to the element itself. -/
def bindOutput (b : PropertyBinder) (hilExprs : List HilNode) : Res BoundNode :=
  match bindExprs b hilExprs with
  | .err e => .err e
  | .crash m => .crash m
  | .nofuel => .nofuel
  | .ok exprs =>
    match exprs with
    | [e] => .ok e
    | _ => .ok (.output exprs)
termination_by (1 + sizeOf hilExprs, 0)

/-- `bindExprs` binds a list of HIL expressions in order, aborting on the
first failure (the Go loop over the preallocated result slice). -/
def bindExprs (b : PropertyBinder) (ns : List HilNode) : Res (List BoundNode) :=
  match ns with
  | [] => .ok []
  | n :: rest =>
    match bindExpr b n with
    | .err e => .err e
    | .crash m => .crash m
    | .nofuel => .nofuel
    | .ok bn =>
      match bindExprs b rest with
      | .err e => .err e
      | .crash m => .crash m
      | .nofuel => .nofuel
      | .ok bns => .ok (bn :: bns)
termination_by (sizeOf ns, 2)

/-- `bindExpr` binds a single HIL expression by dispatching on its
variant.  (The Go default case, an error for an unexpected AST node type,
is unreachable here: the `HilNode` variants are exactly the handled
ones.) -/
def bindExpr (b : PropertyBinder) (n : HilNode) : Res BoundNode :=
  match n with
  | .arithmetic exprs => bindArithmetic b exprs
  | .call func args => bindCall b func args
  | .conditional c t f => bindConditional b c t f
  | .index tgt key => bindIndex b tgt key
  | .literal k v => bindLiteral k v
  | .output exprs => bindOutput b exprs
  | .variableAccess parsed => bindVariableAccess b parsed
termination_by (sizeOf n, 1)

end

/-- A `BoundNodeVisitor` visits and optionally replaces a node in a bound
property tree; returning `ok none` (Go: a nil node with a nil error) means
"delete this node". -/
def BoundNodeVisitor : Type := BoundNode → Res (Option BoundNode)

/-- `IdentityVisitor` returns the input node unchanged. -/
def IdentityVisitor : BoundNodeVisitor := fun n => .ok (some n)

mutual

/-- `visitBoundArithmetic`: visit the operands; if deletion empties them,
delete the arithmetic node itself (before `post` is consulted). -/
def visitBoundArithmetic (fuel : Nat) (exprs : List BoundNode)
    (pre post : BoundNodeVisitor) : Res (Option BoundNode) :=
  match visitBoundExprs fuel exprs pre post with
  | .err e => .err e
  | .crash m => .crash m
  | .nofuel => .nofuel
  | .ok exprs =>
    if exprs.length = 0 then .ok none
    else post (.arithmetic exprs)
termination_by (fuel, 1 + sizeOf exprs, 0)

/-- `visitBoundCall`: visit the arguments and apply `post`.  Unlike the
arithmetic/output/list-property cases, the source has no empty-list check
here: a call whose arguments were all deleted is passed to `post` with an
empty argument list rather than being deleted. -/
def visitBoundCall (fuel : Nat) (func : String) (exprType : Ty) (args : List BoundNode)
    (pre post : BoundNodeVisitor) : Res (Option BoundNode) :=
  match visitBoundExprs fuel args pre post with
  | .err e => .err e
  | .crash m => .crash m
  | .nofuel => .nofuel
  | .ok exprs => post (.call func exprType exprs)
termination_by (fuel, 1 + sizeOf args, 0)

/-- `visitBoundConditional`: visit the three fixed slots and apply `post`.
The Go code stores a possibly-nil visited child back into the typed field;
the spec declares a deleted fixed-arity child undefined caller behavior,
modelled here as a crash outcome. -/
def visitBoundConditional (fuel : Nat) (exprType : Ty) (condExpr trueExpr falseExpr : BoundNode)
    (pre post : BoundNodeVisitor) : Res (Option BoundNode) :=
  match VisitBoundExpr fuel condExpr pre post with
  | .err e => .err e
  | .crash m => .crash m
  | .nofuel => .nofuel
  | .ok none => .crash "nil child stored in a fixed-arity slot"
  | .ok (some c) =>
    match VisitBoundExpr fuel trueExpr pre post with
    | .err e => .err e
    | .crash m => .crash m
    | .nofuel => .nofuel
    | .ok none => .crash "nil child stored in a fixed-arity slot"
    | .ok (some t) =>
      match VisitBoundExpr fuel falseExpr pre post with
      | .err e => .err e
      | .crash m => .crash m
      | .nofuel => .nofuel
      | .ok none => .crash "nil child stored in a fixed-arity slot"
      | .ok (some f) => post (.conditional exprType c t f)
termination_by (fuel, 1 + sizeOf condExpr + sizeOf trueExpr + sizeOf falseExpr, 0)

/-- `visitBoundIndex`: visit target and key and apply `post` (fixed-arity
slots, same nil-child modelling as `visitBoundConditional`). -/
def visitBoundIndex (fuel : Nat) (exprType : Ty) (targetExpr keyExpr : BoundNode)
    (pre post : BoundNodeVisitor) : Res (Option BoundNode) :=
  match VisitBoundExpr fuel targetExpr pre post with
  | .err e => .err e
  | .crash m => .crash m
  | .nofuel => .nofuel
  | .ok none => .crash "nil child stored in a fixed-arity slot"
  | .ok (some t) =>
    match VisitBoundExpr fuel keyExpr pre post with
    | .err e => .err e
    | .crash m => .crash m
    | .nofuel => .nofuel
    | .ok none => .crash "nil child stored in a fixed-arity slot"
    | .ok (some k) => post (.index exprType t k)
termination_by (fuel, 1 + sizeOf targetExpr + sizeOf keyExpr, 0)

/-- `visitBoundListProperty`: visit the elements; if deletion empties them,
delete the list-property node itself (before `post` is consulted). -/
def visitBoundListProperty (fuel : Nat) (elements : List BoundNode)
    (pre post : BoundNodeVisitor) : Res (Option BoundNode) :=
  match visitBoundNodes fuel elements pre post with
  | .err e => .err e
  | .crash m => .crash m
  | .nofuel => .nofuel
  | .ok exprs =>
    if exprs.length = 0 then .ok none
    else post (.listProperty exprs)
termination_by (fuel, 1 + sizeOf elements, 0)

/-- `visitBoundMapProperty`: visit each value, dropping the keys of deleted
values; an empty resulting map does not delete the parent. -/
def visitBoundMapProperty (fuel : Nat) (elements : List (String × BoundNode))
    (pre post : BoundNodeVisitor) : Res (Option BoundNode) :=
  match visitMapEntries fuel elements pre post with
  | .err e => .err e
  | .crash m => .crash m
  | .nofuel => .nofuel
  | .ok elems => post (.mapProperty elems)
termination_by (fuel, 1 + sizeOf elements, 0)

/-- The per-entry loop of `visitBoundMapProperty`: a deleted value removes
its key, a replaced value is stored back under its key. -/
def visitMapEntries (fuel : Nat) (elements : List (String × BoundNode))
    (pre post : BoundNodeVisitor) : Res (List (String × BoundNode)) :=
  match elements with
  | [] => .ok []
  | (k, e) :: rest =>
    match VisitBoundNode fuel e pre post with
    | .err e => .err e
    | .crash m => .crash m
    | .nofuel => .nofuel
    | .ok none => visitMapEntries fuel rest pre post
    | .ok (some ee) =>
      match visitMapEntries fuel rest pre post with
      | .err e => .err e
      | .crash m => .crash m
      | .nofuel => .nofuel
      | .ok elems => .ok ((k, ee) :: elems)
termination_by (fuel, sizeOf elements, 2)

/-- `visitBoundOutput`: visit the operands; if deletion empties them,
delete the output node itself (before `post` is consulted). -/
def visitBoundOutput (fuel : Nat) (exprs : List BoundNode)
    (pre post : BoundNodeVisitor) : Res (Option BoundNode) :=
  match visitBoundExprs fuel exprs pre post with
  | .err e => .err e
  | .crash m => .crash m
  | .nofuel => .nofuel
  | .ok exprs =>
    if exprs.length = 0 then .ok none
    else post (.output exprs)
termination_by (fuel, 1 + sizeOf exprs, 0)

/-- The per-element loop of Go's `visitBoundExprs`: each element is visited
through `VisitBoundExpr`; the resulting slice entries (possibly nil) are
collected in order. -/
def visitBoundExprsEach (fuel : Nat) (ns : List BoundNode)
    (pre post : BoundNodeVisitor) : Res (List (Option BoundNode)) :=
  match ns with
  | [] => .ok []
  | n :: rest =>
    match VisitBoundExpr fuel n pre post with
    | .err e => .err e
    | .crash m => .crash m
    | .nofuel => .nofuel
    | .ok r =>
      match visitBoundExprsEach fuel rest pre post with
      | .err e => .err e
      | .crash m => .crash m
      | .nofuel => .nofuel
      | .ok rs => .ok (r :: rs)
termination_by (fuel, sizeOf ns, 2)

/-- `visitBoundExprs`: visit each expression; the nil results of deleted
children are dropped, preserving the relative order of the survivors.  (If
no child was deleted Go returns the visited slice itself, and if every
child was deleted it returns an empty slice; both equal the nil-filtered
results, written here as `filterMap id`.) -/
def visitBoundExprs (fuel : Nat) (ns : List BoundNode)
    (pre post : BoundNodeVisitor) : Res (List BoundNode) :=
  match visitBoundExprsEach fuel ns pre post with
  | .err e => .err e
  | .crash m => .crash m
  | .nofuel => .nofuel
  | .ok rs =>
    let nils := (rs.filter fun r => r.isNone).length
    if nils = 0 then .ok (rs.filterMap id)
    else if nils = rs.length then .ok []
    else .ok (rs.filterMap id)
termination_by (fuel, sizeOf ns, 3)

/-- The per-element loop of Go's `visitBoundNodes` (as
`visitBoundExprsEach`, but through `VisitBoundNode`, without the
`BoundExpr` cast). -/
def visitBoundNodesEach (fuel : Nat) (ns : List BoundNode)
    (pre post : BoundNodeVisitor) : Res (List (Option BoundNode)) :=
  match ns with
  | [] => .ok []
  | n :: rest =>
    match VisitBoundNode fuel n pre post with
    | .err e => .err e
    | .crash m => .crash m
    | .nofuel => .nofuel
    | .ok r =>
      match visitBoundNodesEach fuel rest pre post with
      | .err e => .err e
      | .crash m => .crash m
      | .nofuel => .nofuel
      | .ok rs => .ok (r :: rs)
termination_by (fuel, sizeOf ns, 2)

/-- `visitBoundNodes`: as `visitBoundExprs`, over plain bound nodes. -/
def visitBoundNodes (fuel : Nat) (ns : List BoundNode)
    (pre post : BoundNodeVisitor) : Res (List BoundNode) :=
  match visitBoundNodesEach fuel ns pre post with
  | .err e => .err e
  | .crash m => .crash m
  | .nofuel => .nofuel
  | .ok rs =>
    let nils := (rs.filter fun r => r.isNone).length
    if nils = 0 then .ok (rs.filterMap id)
    else if nils = rs.length then .ok []
    else .ok (rs.filterMap id)
termination_by (fuel, sizeOf ns, 3)

/-- `VisitBoundNode` visits each node in a property tree with the given
pre- and post-order visitors.  The `fuel` bound is a modelling artifact:
pre-order replacement means traversal depth is not bounded by the input
tree, so each step consumes one unit; every claim below holds for every
sufficient fuel.  A `pre` result of `ok none` (Go: a nil node) falls
through the type switch to the default branch, which is `contract.Failf`
— an unrecoverable assertion failure, modelled as `crash`. -/
def VisitBoundNode (fuel : Nat) (n : BoundNode)
    (pre post : BoundNodeVisitor) : Res (Option BoundNode) :=
  match fuel with
  | 0 => .nofuel
  | fuel + 1 =>
    match pre n with
    | .err e => .err e
    | .crash m => .crash m
    | .nofuel => .nofuel
    | .ok none => .crash "unexpected node type in visitBoundExpr: <nil>"
    | .ok (some n) =>
      match n with
      | .arithmetic exprs => visitBoundArithmetic fuel exprs pre post
      | .call func t args => visitBoundCall fuel func t args pre post
      | .conditional t c tr fa => visitBoundConditional fuel t c tr fa pre post
      | .index t tgt key => visitBoundIndex fuel t tgt key pre post
      | .listProperty elems => visitBoundListProperty fuel elems pre post
      | .literal t v => post (.literal t v)
      | .mapProperty elems => visitBoundMapProperty fuel elems pre post
      | .output exprs => visitBoundOutput fuel exprs pre post
      | .variableAccess a s t tv il => post (.variableAccess a s t tv il)
termination_by (fuel, sizeOf n, 0)

/-- `VisitBoundExpr`: as `VisitBoundNode`, but the non-nil result is cast
unconditionally to `BoundExpr`; a non-expression result is a runtime panic
(an unchecked Go interface conversion), modelled as `crash`. -/
def VisitBoundExpr (fuel : Nat) (n : BoundNode)
    (pre post : BoundNodeVisitor) : Res (Option BoundNode) :=
  match VisitBoundNode fuel n pre post with
  | .err e => .err e
  | .crash m => .crash m
  | .nofuel => .nofuel
  | .ok none => .ok none
  | .ok (some nn) =>
    if nn.isExpr then .ok (some nn)
    else .crash "interface conversion: BoundNode is not BoundExpr"
termination_by (fuel, sizeOf n, 1)

end

/-- An empty binder environment with no count index in scope. -/
def emptyBinder : PropertyBinder := ⟨⟨[], [], [], []⟩, false⟩

/-- An empty binder environment with a count index in scope. -/
def countBinder : PropertyBinder := ⟨⟨[], [], [], []⟩, true⟩

/-- A resource whose schema declares one leaf property, a String named
`name`, and whose provider resolves. -/
def exampleResource : ResourceNode :=
  ⟨.mk TypeUnknown [("name", .mk TypeString [])], true⟩

/-- A binder environment knowing the single resource `aws_instance.web`. -/
def resBinder : PropertyBinder :=
  ⟨⟨[], [], [("aws_instance.web", exampleResource)], []⟩, false⟩

/-- A binder environment with three user variables: one without a default,
one with a String default, one with a Number default. -/
def varBinder : PropertyBinder :=
  ⟨⟨[], [], [],
    [("plain", ⟨none⟩), ("strdef", ⟨some TypeString⟩), ("numdef", ⟨some TypeNumber⟩)]⟩,
   false⟩

/-- A visitor that deletes every node it is given. -/
def deleteEverything : BoundNodeVisitor := fun _ => .ok none

/-- A visitor that deletes literal nodes and keeps everything else. -/
def deleteLiterals : BoundNodeVisitor := fun n =>
  match n with
  | .literal _ _ => .ok none
  | m => .ok (some m)

/-- A visitor that replaces literal nodes by an empty map-property node (a
bound node that is not a `BoundExpr`) and keeps everything else. -/
def replaceLiteralWithMap : BoundNodeVisitor := fun n =>
  match n with
  | .literal _ _ => .ok (some (.mapProperty []))
  | m => .ok (some m)

/-- Successfully binding a list of expressions yields one bound expression
per input expression. -/
theorem bindExprs_length (b : PropertyBinder) (ns : List HilNode) (bs : List BoundNode)
    (h : bindExprs b ns = .ok bs) : bs.length = ns.length := by
  induction ns generalizing bs with
  | nil =>
    simp only [bindExprs] at h
    cases h
    rfl
  | cons n rest ih =>
    simp only [bindExprs] at h
    cases hbe : bindExpr b n with
    | ok bn =>
      rw [hbe] at h
      cases hrest : bindExprs b rest with
      | ok bns =>
        rw [hrest] at h
        cases h
        simp [ih bns hrest]
      | err e => rw [hrest] at h; cases h
      | crash m => rw [hrest] at h; cases h
      | nofuel => rw [hrest] at h; cases h
    | err e => rw [hbe] at h; cases h
    | crash m => rw [hbe] at h; cases h
    | nofuel => rw [hbe] at h; cases h

/-- If every entry of a list of optional values is `none` (expressed by the
`isNone` filter keeping the whole list), dropping the `none`s leaves the
empty list. -/
theorem filterMap_id_of_all_none {α : Type} (rs : List (Option α))
    (h : (rs.filter fun r => r.isNone).length = rs.length) :
    rs.filterMap id = [] := by
  induction rs with
  | nil => rfl
  | cons r rest ih =>
    cases r with
    | none =>
      rw [List.filter_cons_of_pos (by rfl)] at h
      simp only [List.length_cons] at h
      simp only [List.filterMap_cons, id]
      exact ih (by omega)
    | some x =>
      exfalso
      have hle := List.length_filter_le (fun r => Option.isNone r) rest
      rw [List.filter_cons_of_neg (by simp)] at h
      simp only [List.length_cons] at h
      omega

/-- Claim C4: for every argument list all of whose members bind
successfully, binding a call to the function "map" succeeds with result
type Map when the argument count is even, and fails with the arity error
when the argument count is odd, regardless of the arguments' content. -/
theorem map_call_arity (b : PropertyBinder) (hilArgs : List HilNode) (args : List BoundNode)
    (h : bindExprs b hilArgs = .ok args) :
    (hilArgs.length % 2 = 0 →
      bindCall b "map" hilArgs = .ok (.call "map" TypeMap args) ∧
      (BoundNode.call "map" TypeMap args).type = TypeMap) ∧
    (hilArgs.length % 2 = 1 →
      bindCall b "map" hilArgs = .err "the numbner of arguments to \"map\" must be even") := by
  have hlen := bindExprs_length b hilArgs args h
  constructor
  · intro heven
    refine ⟨?_, rfl⟩
    have hne : ¬ args.length % 2 ≠ 0 := by omega
    simp only [bindCall]
    rw [h]
    simp [hne]
  · intro hodd
    have hne : args.length % 2 ≠ 0 := by omega
    simp only [bindCall]
    rw [h]
    simp [hne]

/-- Claim C4 witness: a concrete even-length (empty) and odd-length
(singleton) argument list. -/
theorem map_call_arity_witness :
    bindCall emptyBinder "map" [] = .ok (.call "map" TypeMap []) ∧
    bindCall emptyBinder "map" [.literal .string "k"] =
      .err "the numbner of arguments to \"map\" must be even" := by
  constructor
  · exact ((map_call_arity emptyBinder [] [] (by simp [bindExprs])).1 (by decide)).1
  · exact (map_call_arity emptyBinder [.literal .string "k"] [.literal TypeString "k"]
      (by simp [bindExprs, bindExpr, bindLiteral])).2 (by decide)

/-- Claim C5: for every conditional whose condition and branches all bind
successfully, the bound conditional's result type is the true branch's
type when it equals the false branch's type and Unknown otherwise, with
the three bound children stored unchanged (no coercion). -/
theorem conditional_type_unification (b : PropertyBinder)
    (hilCond hilTrue hilFalse : HilNode) (bc bt bf : BoundNode)
    (hc : bindExpr b hilCond = .ok bc) (ht : bindExpr b hilTrue = .ok bt)
    (hf : bindExpr b hilFalse = .ok bf) :
    bindConditional b hilCond hilTrue hilFalse =
      .ok (.conditional (if bt.type = bf.type then bt.type else TypeUnknown) bc bt bf) ∧
    (BoundNode.conditional (if bt.type = bf.type then bt.type else TypeUnknown) bc bt bf).type =
      (if bt.type = bf.type then bt.type else TypeUnknown) := by
  refine ⟨?_, rfl⟩
  simp only [bindConditional]
  rw [hc, ht, hf]
  by_cases hEq : bt.type = bf.type
  · simp [hEq]
  · simp [hEq]

/-- Claim C5 witness: equal branch types give that type; differing branch
types give Unknown. -/
theorem conditional_type_unification_witness :
    bindConditional emptyBinder (.literal .bool "true") (.literal .string "a") (.literal .string "b") =
      .ok (.conditional TypeString (.literal TypeBool "true")
        (.literal TypeString "a") (.literal TypeString "b")) ∧
    bindConditional emptyBinder (.literal .bool "true") (.literal .int "1") (.literal .string "b") =
      .ok (.conditional TypeUnknown (.literal TypeBool "true")
        (.literal TypeNumber "1") (.literal TypeString "b")) := by
  constructor
  · have h := conditional_type_unification emptyBinder
      (.literal .bool "true") (.literal .string "a") (.literal .string "b")
      (.literal TypeBool "true") (.literal TypeString "a") (.literal TypeString "b")
      (by simp [bindExpr, bindLiteral]) (by simp [bindExpr, bindLiteral])
      (by simp [bindExpr, bindLiteral])
    exact h.1.trans (by simp [BoundNode.type])
  · have h := conditional_type_unification emptyBinder
      (.literal .bool "true") (.literal .int "1") (.literal .string "b")
      (.literal TypeBool "true") (.literal TypeNumber "1") (.literal TypeString "b")
      (by simp [bindExpr, bindLiteral]) (by simp [bindExpr, bindLiteral])
      (by simp [bindExpr, bindLiteral])
    have hne : TypeNumber ≠ TypeString := by decide
    exact h.1.trans (by simp [BoundNode.type, hne])

/-- Claim C6: binding an output wrapper whose sub-expressions all bind
successfully returns the single bound sub-expression itself when there is
exactly one, and an Output node holding exactly the bound sub-expressions
in order when there are zero or two or more. -/
theorem output_projection (b : PropertyBinder) (hilExprs : List HilNode)
    (exprs : List BoundNode) (h : bindExprs b hilExprs = .ok exprs) :
    (∀ e, exprs = [e] → bindOutput b hilExprs = .ok e) ∧
    (hilExprs.length ≠ 1 → bindOutput b hilExprs = .ok (.output exprs)) := by
  have hlen := bindExprs_length b hilExprs exprs h
  constructor
  · intro e he
    simp only [bindOutput]
    rw [h, he]
  · intro hne
    simp only [bindOutput]
    rw [h]
    cases exprs with
    | nil => rfl
    | cons e rest =>
      cases rest with
      | nil =>
        exfalso
        apply hne
        rw [← hlen]
        rfl
      | cons f rest2 => rfl

/-- Claim C6 witness: a one-element output is projected to its element; a
two-element output wraps both bound elements in order. -/
theorem output_projection_witness :
    bindOutput emptyBinder [.literal .string "a"] = .ok (.literal TypeString "a") ∧
    bindOutput emptyBinder [.literal .string "a", .literal .int "1"] =
      .ok (.output [.literal TypeString "a", .literal TypeNumber "1"]) := by
  constructor
  · exact (output_projection emptyBinder [.literal .string "a"] [.literal TypeString "a"]
      (by simp [bindExprs, bindExpr, bindLiteral])).1 (.literal TypeString "a") rfl
  · exact (output_projection emptyBinder [.literal .string "a", .literal .int "1"]
      [.literal TypeString "a", .literal TypeNumber "1"]
      (by simp [bindExprs, bindExpr, bindLiteral])).2 (by decide)

/-- Claim C7: binding a count-index variable access fails when no count
index is in lexical scope, succeeds with result type Number when one is in
scope, and fails for any count-variable sub-kind other than index
regardless of scope. -/
theorem count_scope_gating (b : PropertyBinder) (fullKey : String) :
    (b.hasCountIndex = false →
      bindVariableAccess b (.ok (.count .index fullKey)) = .err "no count index in scope") ∧
    (b.hasCountIndex = true →
      bindVariableAccess b (.ok (.count .index fullKey)) =
        .ok (.variableAccess [] Schemas.empty TypeNumber (.count .index fullKey) none) ∧
      (BoundNode.variableAccess [] Schemas.empty TypeNumber (.count .index fullKey) none).type
        = TypeNumber) ∧
    (∀ kind, kind ≠ CountValueKind.index →
      bindVariableAccess b (.ok (.count kind fullKey)) =
        .err ("unsupported count variable " ++ fullKey)) := by
  refine ⟨?_, ?_, ?_⟩
  · intro hf
    simp [bindVariableAccess, hf]
  · intro ht
    exact ⟨by simp [bindVariableAccess, ht], rfl⟩
  · intro kind hk
    simp [bindVariableAccess, hk]

/-- Claim C7 witness: the three concrete cases (no scope, scope, non-index
sub-kind). -/
theorem count_scope_gating_witness :
    bindVariableAccess emptyBinder (.ok (.count .index "count.index")) =
      .err "no count index in scope" ∧
    bindVariableAccess countBinder (.ok (.count .index "count.index")) =
      .ok (.variableAccess [] Schemas.empty TypeNumber (.count .index "count.index") none) ∧
    bindVariableAccess countBinder (.ok (.count .invalid "count.bogus")) =
      .err ("unsupported count variable " ++ "count.bogus") := by
  refine ⟨?_, ?_, ?_⟩
  · exact (count_scope_gating emptyBinder "count.index").1 rfl
  · exact ((count_scope_gating countBinder "count.index").2.1 rfl).1
  · exact (count_scope_gating countBinder "count.bogus").2.2 .invalid (by decide)

/-- Claim C8: a non-element-qualified user-variable access that resolves
to a known variable node has result type String when the variable has no
default or a String-typed default, and Unknown when its default's type is
not String. -/
theorem user_variable_default_type (b : PropertyBinder) (name : String) (vn : VariableNode)
    (h : b.builder.vars.lookup name = some vn) :
    (vn.defaultValue = none →
      bindVariableAccess b (.ok (.user "" name)) =
        .ok (.variableAccess [] Schemas.empty TypeString (.user "" name) (some (.varRef name)))) ∧
    (vn.defaultValue = some TypeString →
      bindVariableAccess b (.ok (.user "" name)) =
        .ok (.variableAccess [] Schemas.empty TypeString (.user "" name) (some (.varRef name)))) ∧
    (∀ dt, vn.defaultValue = some dt → dt ≠ TypeString →
      bindVariableAccess b (.ok (.user "" name)) =
        .ok (.variableAccess [] Schemas.empty TypeUnknown (.user "" name) (some (.varRef name)))) := by
  refine ⟨?_, ?_, ?_⟩
  · intro hd
    simp [bindVariableAccess, h, hd]
  · intro hd
    simp [bindVariableAccess, h, hd]
  · intro dt hd hne
    simp [bindVariableAccess, h, hd, hne]

/-- Claim C8 witness: the three concrete defaults (absent, String,
Number). -/
theorem user_variable_default_type_witness :
    bindVariableAccess varBinder (.ok (.user "" "plain")) =
      .ok (.variableAccess [] Schemas.empty TypeString (.user "" "plain")
        (some (.varRef "plain"))) ∧
    bindVariableAccess varBinder (.ok (.user "" "strdef")) =
      .ok (.variableAccess [] Schemas.empty TypeString (.user "" "strdef")
        (some (.varRef "strdef"))) ∧
    bindVariableAccess varBinder (.ok (.user "" "numdef")) =
      .ok (.variableAccess [] Schemas.empty TypeUnknown (.user "" "numdef")
        (some (.varRef "numdef"))) := by
  refine ⟨?_, ?_, ?_⟩
  · exact (user_variable_default_type varBinder "plain" ⟨none⟩ rfl).1 rfl
  · exact (user_variable_default_type varBinder "strdef" ⟨some TypeString⟩ rfl).2.1 rfl
  · exact (user_variable_default_type varBinder "numdef" ⟨some TypeNumber⟩ rfl).2.2
      TypeNumber rfl (by decide)

/-- Claim C9: in the source, the result-type rule for `element` reads
`args[0]` without checking that any argument exists; binding a call to
"element" with an empty argument list is therefore a runtime out-of-range
panic rather than a returned result or error. -/
theorem bindCall_element_empty :
    bindCall emptyBinder "element" [] =
      .crash "runtime error: index out of range [0] with length 0" := by
  simp [bindCall, bindExprs]

/-- Claim C1: for a resource-variable access whose accessed field resolves
through the resource's schema to a leaf of type T, binding a non-multi
reference yields a BoundVariableAccess of type OutputOf(T), and binding
the same reference marked multi with no explicit index yields type
OutputOf(ListOf(T)). -/
theorem resource_access_output_type (b : PropertyBinder) (rid field : String)
    (r : ResourceNode) (idx : Int) (T : Ty)
    (hr : b.builder.resources.lookup rid = some r)
    (hp : r.providerOk = true)
    (hT : ((splitField field).foldl Schemas.PropertySchemas r.schemas).type = T) :
    (bindVariableAccess b (.ok (.resource rid field false idx)) =
       .ok (.variableAccess (splitField field) r.schemas (Ty.OutputOf T)
         (.resource rid field false idx) (some (.resourceRef rid))) ∧
     (BoundNode.variableAccess (splitField field) r.schemas (Ty.OutputOf T)
         (.resource rid field false idx) (some (.resourceRef rid))).type = Ty.OutputOf T) ∧
    (bindVariableAccess b (.ok (.resource rid field true (-1))) =
       .ok (.variableAccess (splitField field) r.schemas (Ty.OutputOf (Ty.ListOf T))
         (.resource rid field true (-1)) (some (.resourceRef rid))) ∧
     (BoundNode.variableAccess (splitField field) r.schemas (Ty.OutputOf (Ty.ListOf T))
         (.resource rid field true (-1)) (some (.resourceRef rid))).type
       = Ty.OutputOf (Ty.ListOf T)) := by
  have hcomm : Ty.ListOf (Ty.OutputOf T) = Ty.OutputOf (Ty.ListOf T) := rfl
  refine ⟨⟨?_, rfl⟩, ⟨?_, rfl⟩⟩
  · simp [bindVariableAccess, hr, Builder.ensureProvider, hp, hT]
  · simp [bindVariableAccess, hr, Builder.ensureProvider, hp, ← hcomm, hT]

/-- Claim C1 witness: the spec's own example, a resource schema declaring
the String leaf `name`: the non-multi access has type OutputOf(String)
and the splat access has type OutputOf(ListOf(String)). -/
theorem resource_access_output_type_witness :
    bindVariableAccess resBinder (.ok (.resource "aws_instance.web" "name" false 0)) =
      .ok (.variableAccess ["name"] exampleResource.schemas (Ty.OutputOf TypeString)
        (.resource "aws_instance.web" "name" false 0)
        (some (.resourceRef "aws_instance.web"))) ∧
    bindVariableAccess resBinder (.ok (.resource "aws_instance.web" "name" true (-1))) =
      .ok (.variableAccess ["name"] exampleResource.schemas (Ty.OutputOf (Ty.ListOf TypeString))
        (.resource "aws_instance.web" "name" true (-1))
        (some (.resourceRef "aws_instance.web"))) := by
  have h := resource_access_output_type resBinder "aws_instance.web" "name"
    exampleResource 0 TypeString rfl rfl rfl
  exact ⟨h.1.1.trans (by rfl), h.2.1.trans (by rfl)⟩

/-- Claim C3 counterexample: a pre visitor that returns an absent result
on a literal node does not make the traversal return an absent result
without error — it makes the traversal fail with the unrecognized-variant
assertion failure. -/
theorem pre_delete_not_absent :
    VisitBoundNode 1 (.literal TypeNumber "1") deleteEverything IdentityVisitor =
      .crash "unexpected node type in visitBoundExpr: <nil>" ∧
    VisitBoundNode 1 (.literal TypeNumber "1") deleteEverything IdentityVisitor ≠
      .ok none := by
  have h : VisitBoundNode 1 (.literal TypeNumber "1") deleteEverything IdentityVisitor =
      .crash "unexpected node type in visitBoundExpr: <nil>" := by
    simp [VisitBoundNode, deleteEverything]
  exact ⟨h, by rw [h]; simp⟩

/-- Claim C3 (amended): a pre visitor that returns an absent result does
not delete the node; the deleted node falls through the traversal's type
switch to the default branch and the traversal fails with the
internal-invariant assertion (a crash), for every node and post visitor.
Deletion producing an absent result without error is available through
the post visitor (shown here for a leaf node). -/
theorem pre_delete_behavior (fuel : Nat) (n : BoundNode) (pre post : BoundNodeVisitor) :
    (pre n = .ok none →
      VisitBoundNode (fuel + 1) n pre post =
        .crash "unexpected node type in visitBoundExpr: <nil>") ∧
    (∀ t v, pre (.literal t v) = .ok (some (.literal t v)) →
      post (.literal t v) = .ok none →
      VisitBoundNode (fuel + 1) (.literal t v) pre post = .ok none) := by
  constructor
  · intro h
    simp only [VisitBoundNode]
    rw [h]
  · intro t v hpre hpost
    simp only [VisitBoundNode]
    rw [hpre]
    exact hpost

/-- Claim C3 witness: the crash branch at a concrete literal with the
delete-everything pre visitor, and the clean deletion through the post
visitor at the same literal. -/
theorem pre_delete_behavior_witness :
    VisitBoundNode 1 (.literal TypeString "x") deleteEverything IdentityVisitor =
      .crash "unexpected node type in visitBoundExpr: <nil>" ∧
    VisitBoundNode 1 (.literal TypeString "x") IdentityVisitor deleteEverything =
      .ok none := by
  constructor
  · exact (pre_delete_behavior 0 (.literal TypeString "x") deleteEverything IdentityVisitor).1 rfl
  · exact (pre_delete_behavior 0 (.literal TypeString "x") IdentityVisitor deleteEverything).2
      TypeString "x" rfl rfl

/-- Claim C2 counterexample: a Call node is a multi-child list-bearing
bound node, yet deleting its only child does not delete it: the traversal
returns the call with an empty argument list (produced by its post
visitor), not an absent result. -/
theorem call_empty_args_not_deleted :
    VisitBoundNode 2 (.call "format" TypeString [.literal TypeString "x"])
        IdentityVisitor deleteLiterals =
      .ok (some (.call "format" TypeString [])) ∧
    VisitBoundNode 2 (.call "format" TypeString [.literal TypeString "x"])
        IdentityVisitor deleteLiterals ≠ .ok none := by
  have h : VisitBoundNode 2 (.call "format" TypeString [.literal TypeString "x"])
      IdentityVisitor deleteLiterals = .ok (some (.call "format" TypeString [])) := by
    simp [VisitBoundNode, visitBoundCall, visitBoundExprs, visitBoundExprsEach,
      VisitBoundExpr, IdentityVisitor, deleteLiterals]
  exact ⟨h, by rw [h]; simp⟩

/-- Claim C2 (amended): for Arithmetic, Output, and ListProperty nodes,
visiting with visitors that delete every child deletes the node itself —
the traversal returns an absent result, never consulting the post visitor
on the parent; a Call node whose arguments are all deleted is instead
passed to its post visitor with an empty argument list; and the surviving
children of a partially deleted child list are exactly the non-deleted
visit results in their original relative order. -/
theorem visit_delete_propagation (fuel : Nat) (pre post : BoundNodeVisitor)
    (exprs nodes : List BoundNode) (func : String) (t : Ty) :
    (pre (.arithmetic exprs) = .ok (some (.arithmetic exprs)) →
      visitBoundExprs fuel exprs pre post = .ok [] →
      VisitBoundNode (fuel + 1) (.arithmetic exprs) pre post = .ok none) ∧
    (pre (.output exprs) = .ok (some (.output exprs)) →
      visitBoundExprs fuel exprs pre post = .ok [] →
      VisitBoundNode (fuel + 1) (.output exprs) pre post = .ok none) ∧
    (pre (.listProperty nodes) = .ok (some (.listProperty nodes)) →
      visitBoundNodes fuel nodes pre post = .ok [] →
      VisitBoundNode (fuel + 1) (.listProperty nodes) pre post = .ok none) ∧
    (pre (.call func t exprs) = .ok (some (.call func t exprs)) →
      visitBoundExprs fuel exprs pre post = .ok [] →
      VisitBoundNode (fuel + 1) (.call func t exprs) pre post = post (.call func t [])) ∧
    (∀ rs, visitBoundExprsEach fuel exprs pre post = .ok rs →
      visitBoundExprs fuel exprs pre post = .ok (rs.filterMap id)) ∧
    (∀ rs, visitBoundNodesEach fuel nodes pre post = .ok rs →
      visitBoundNodes fuel nodes pre post = .ok (rs.filterMap id)) := by
  refine ⟨?_, ?_, ?_, ?_, ?_, ?_⟩
  · intro hpre hk
    simp only [VisitBoundNode]
    rw [hpre]
    simp only [visitBoundArithmetic]
    rw [hk]
    rfl
  · intro hpre hk
    simp only [VisitBoundNode]
    rw [hpre]
    simp only [visitBoundOutput]
    rw [hk]
    rfl
  · intro hpre hk
    simp only [VisitBoundNode]
    rw [hpre]
    simp only [visitBoundListProperty]
    rw [hk]
    rfl
  · intro hpre hk
    simp only [VisitBoundNode]
    rw [hpre]
    simp only [visitBoundCall]
    rw [hk]
  · intro rs hrs
    simp only [visitBoundExprs]
    rw [hrs]
    by_cases h0 : ((rs.filter fun r => r.isNone).length) = 0
    · simp [h0]
    · by_cases hall : ((rs.filter fun r => r.isNone).length) = rs.length
      · simp [h0, hall, filterMap_id_of_all_none rs hall]
      · simp [h0, hall]
  · intro rs hrs
    simp only [visitBoundNodes]
    rw [hrs]
    by_cases h0 : ((rs.filter fun r => r.isNone).length) = 0
    · simp [h0]
    · by_cases hall : ((rs.filter fun r => r.isNone).length) = rs.length
      · simp [h0, hall, filterMap_id_of_all_none rs hall]
      · simp [h0, hall]

/-- Claim C2 witness: deleting the only operand of an arithmetic node
deletes the arithmetic node itself; the partially deleted two-element list
keeps the survivor; and the emptied call is handed to its post visitor. -/
theorem visit_delete_propagation_witness :
    VisitBoundNode 2 (.arithmetic [.literal TypeString "x"])
      IdentityVisitor deleteLiterals = .ok none ∧
    visitBoundExprs 1 [.literal TypeString "x", .variableAccess [] Schemas.empty TypeNumber (.count .index "k") none]
      IdentityVisitor deleteLiterals =
      .ok [.variableAccess [] Schemas.empty TypeNumber (.count .index "k") none] ∧
    VisitBoundNode 2 (.call "format" TypeString [.literal TypeString "x"])
      IdentityVisitor deleteLiterals = .ok (some (.call "format" TypeString [])) := by
  have hdel : visitBoundExprs 1 [.literal TypeString "x"] IdentityVisitor deleteLiterals = .ok [] := by
    simp [visitBoundExprs, visitBoundExprsEach, VisitBoundExpr, VisitBoundNode,
      IdentityVisitor, deleteLiterals]
  have heach : visitBoundExprsEach 1
      [.literal TypeString "x", .variableAccess [] Schemas.empty TypeNumber (.count .index "k") none]
      IdentityVisitor deleteLiterals =
      .ok [none, some (.variableAccess [] Schemas.empty TypeNumber (.count .index "k") none)] := by
    simp [visitBoundExprsEach, VisitBoundExpr, VisitBoundNode, IdentityVisitor, deleteLiterals,
      BoundNode.isExpr]
  refine ⟨?_, ?_, ?_⟩
  · exact (visit_delete_propagation 1 IdentityVisitor deleteLiterals
      [.literal TypeString "x"] [] "format" TypeString).1 rfl hdel
  · exact ((visit_delete_propagation 1 IdentityVisitor deleteLiterals
      [.literal TypeString "x", .variableAccess [] Schemas.empty TypeNumber (.count .index "k") none]
      [] "format" TypeString).2.2.2.2.1
      [none, some (.variableAccess [] Schemas.empty TypeNumber (.count .index "k") none)]
      heach).trans (by rfl)
  · exact ((visit_delete_propagation 1 IdentityVisitor deleteLiterals
      [.literal TypeString "x"] [] "format" TypeString).2.2.2.1 rfl hdel).trans
      (by simp [deleteLiterals])

/-- Claim C10: when a bound expression is visited through the
expression-typed entry point and the traversal's result is a bound node
that is not an expression (for example a container-only MapProperty), the
unconditional cast of the result fails as an unchecked assertion (a
crash), rather than returning an error. -/
theorem visitBoundExpr_cast_crash (fuel : Nat) (n m : BoundNode) (pre post : BoundNodeVisitor)
    (_hn : n.isExpr = true)
    (h : VisitBoundNode fuel n pre post = .ok (some m)) (hm : m.isExpr = false) :
    VisitBoundExpr fuel n pre post =
      .crash "interface conversion: BoundNode is not BoundExpr" := by
  simp only [VisitBoundExpr]
  rw [h]
  simp [hm]

/-- Claim C10 witness: replacing a literal with an empty MapProperty makes
the expression-typed traversal crash on the cast. -/
theorem visitBoundExpr_cast_crash_witness :
    VisitBoundExpr 2 (.literal TypeString "x") replaceLiteralWithMap IdentityVisitor =
      .crash "interface conversion: BoundNode is not BoundExpr" := by
  apply visitBoundExpr_cast_crash 2 (.literal TypeString "x") (.mapProperty [])
    replaceLiteralWithMap IdentityVisitor rfl ?_ rfl
  simp [VisitBoundNode, visitBoundMapProperty, visitMapEntries, replaceLiteralWithMap,
    IdentityVisitor]
